import Mathlib

/-!
# Verification of the intellagent orchestration pipeline

Shallow embedding of `src/simulator/simulator_executor.py` (the cost-bounded
batch scheduler `run_simulation`, the results aggregator `analyze_results`,
the workspace manager `set_output_folder` and the checkpointed catalogue
builder in `__init__`) and of
`src/examples/retail/input/tools/modify_pending_order_address.py`
(`ModifyPendingOrderAddress.invoke`), together with theorems settling the
specification's claims about them.
-/

namespace Intellagent

/-! ## Cost-bounded batch scheduler (`SimulatorExecutor.run_simulation`)

In the source (simulator_executor.py, lines 89-105):

    mini_batch_size = self.config['dialog_manager']['mini_batch_size']
    records = self.dataset_handler.records
    num_batch = len(records) // mini_batch_size
    all_res = []
    total_cost = 0
    for i in range(num_batch):
        if total_cost > self.config['dialog_manager']['cost_limit']:
            break
        res, cost = self.dialog_manager.run_events(records[i * mini_batch_size:
                                                           (i + 1) * mini_batch_size])
        all_res.extend(res)
        total_cost += cost

The dialogue collaborator `run_events` is abstracted as a function
`driver : List α → List β × Int` returning the batch results and the
incremental cost of the batch. -/

/-- The list of batches the loop submits: `num_batch = len(records) // B`
slices `records[i*B : (i+1)*B]`, in order. -/
def mkBatches (records : List α) (B : Nat) : List (List α) :=
  (List.range (records.length / B)).map (fun i => (records.drop (i * B)).take B)

/-- The loop body of `run_simulation`: iterate over the batches, breaking
before a batch when `total_cost > cost_limit`, otherwise running the batch,
extending the result list and accumulating the cost. -/
def runLoop (driver : List α → List β × Int) (limit : Int) :
    List (List α) → List β → Int → List β × Int
  | [], acc, total => (acc, total)
  | b :: rest, acc, total =>
    if limit < total then (acc, total)
    else
      let rc := driver b
      runLoop driver limit rest (acc ++ rc.1) (total + rc.2)

/-- `run_simulation` restricted to its batching loop: produces the collected
results and the accumulated total cost. -/
def run_simulation (records : List α) (B : Nat) (limit : Int)
    (driver : List α → List β × Int) : List β × Int :=
  runLoop driver limit (mkBatches records B) [] 0

/-- Number of batches the loop actually executes, given the per-batch cost
sequence: the pre-check compares the cost accumulated so far against the
limit (strictly greater stops). -/
def execCount (limit : Int) : Int → List Int → Nat
  | _, [] => 0
  | total, c :: rest =>
    if limit < total then 0 else execCount limit (total + c) rest + 1

/-- Characterization of the loop: it runs the first `execCount` batches,
concatenating their results and summing their costs. -/
theorem runLoop_eq (driver : List α → List β × Int) (limit : Int) :
    ∀ (batches : List (List α)) (acc : List β) (total : Int),
      runLoop driver limit batches acc total =
        (acc ++ ((batches.take
            (execCount limit total (batches.map fun b => (driver b).2))).map
            fun b => (driver b).1).flatten,
         total + ((batches.map fun b => (driver b).2).take
            (execCount limit total (batches.map fun b => (driver b).2))).sum) := by
  intro batches
  induction batches with
  | nil => intro acc total; simp [runLoop, execCount]
  | cons b rest ih =>
    intro acc total
    by_cases h : limit < total
    · simp [runLoop, execCount, h]
    · simp only [runLoop, execCount, h, if_neg, if_false, List.map_cons]
      rw [ih]
      simp [List.take_succ_cons, List.flatten, List.append_assoc, add_assoc]

/-- If the cumulative cost of the first `j` batches already exceeds the
limit, at most `j` batches run. -/
theorem execCount_le_of_exceeds (limit : Int) :
    ∀ (cs : List Int) (total : Int) (j : Nat),
      limit < total + (cs.take j).sum → execCount limit total cs ≤ j := by
  intro cs
  induction cs with
  | nil => intro total j _; simp [execCount]
  | cons c rest ih =>
    intro total j hj
    by_cases h : limit < total
    · simp [execCount, h]
    · cases j with
      | zero =>
        simp only [List.take_zero, List.sum_nil, add_zero] at hj
        exact absurd hj h
      | succ j' =>
        simp only [execCount, h, if_neg, if_false]
        have := ih (total + c) j' (by
          simp only [List.take_succ_cons, List.sum_cons] at hj
          omega)
        omega

/-- If every cost is non-negative and the cumulative cost of the first `j`
batches is still within the limit, batch `j` runs (so strictly more than
`j` batches run). -/
theorem lt_execCount_of_within (limit : Int) :
    ∀ (cs : List Int) (total : Int) (j : Nat),
      (∀ c ∈ cs, 0 ≤ c) → j < cs.length →
      total + (cs.take j).sum ≤ limit → j < execCount limit total cs := by
  intro cs
  induction cs with
  | nil => intro total j _ hj _; simp at hj
  | cons c rest ih =>
    intro total j hnn hj hsum
    have hsumnn : 0 ≤ ((c :: rest).take j).sum := by
      apply List.sum_nonneg
      intro x hx
      exact hnn x (List.mem_of_mem_take hx)
    have hns : ¬ limit < total := by omega
    cases j with
    | zero => simp [execCount, hns]
    | succ j' =>
      simp only [execCount, hns, if_neg, if_false]
      have := ih (total + c) j'
        (fun x hx => hnn x (List.mem_cons_of_mem _ hx))
        (by simpa using hj)
        (by simp only [List.take_succ_cons, List.sum_cons] at hsum; omega)
      omega

/-- If every pre-check passes (each prefix cost sum is within the limit),
all batches run. -/
theorem execCount_eq_length (limit : Int) :
    ∀ (cs : List Int) (total : Int),
      (∀ j, j < cs.length → total + (cs.take j).sum ≤ limit) →
      execCount limit total cs = cs.length := by
  intro cs
  induction cs with
  | nil => intro total _; simp [execCount]
  | cons c rest ih =>
    intro total hpre
    have h0 : total ≤ limit := by
      have := hpre 0 (by simp)
      simpa using this
    have hns : ¬ limit < total := by omega
    simp only [execCount, hns, if_neg, if_false, List.length_cons]
    rw [ih (total + c)]
    intro j hj
    have := hpre (j + 1) (by simpa using hj)
    simp only [List.take_succ_cons, List.sum_cons] at this
    omega

/-- Concatenating the first `k` batches (for `k * B ≤ N`) recovers the first
`k * B` records in order. -/
theorem mkBatches_flatten_take (records : List α) (B : Nat) :
    ∀ k, k * B ≤ records.length →
      ((List.range k).map (fun i => (records.drop (i * B)).take B)).flatten =
        records.take (k * B) := by
  intro k
  induction k with
  | zero => intro _; simp
  | succ k ih =>
    intro hk
    rw [List.range_succ, List.map_append, List.flatten_append]
    rw [ih (by nlinarith)]
    simp only [List.map_cons, List.map_nil, List.flatten_cons, List.flatten_nil,
      List.append_nil]
    rw [← List.take_add]
    congr 1
    ring

/-- Every batch produced by `mkBatches` has exactly `B` elements
(the trailing remainder is never a batch). -/
theorem mkBatches_length_eq (records : List α) (B : Nat) :
    ∀ b ∈ mkBatches records B, b.length = B := by
  intro b hb
  simp only [mkBatches, List.mem_map, List.mem_range] at hb
  obtain ⟨i, hi, rfl⟩ := hb
  have h1 : (i + 1) * B ≤ (records.length / B) * B :=
    Nat.mul_le_mul_right _ hi
  have h2 : (records.length / B) * B ≤ records.length :=
    Nat.div_mul_le_self _ _
  have h3 : (i + 1) * B = i * B + B := by ring
  simp only [List.length_take, List.length_drop]
  omega

/-- The per-batch incremental costs the driver charges for the batches of a
run, in batch order. -/
def batchCosts (records : List α) (B : Nat)
    (driver : List α → List β × Int) : List Int :=
  (mkBatches records B).map fun b => (driver b).2

/-- C1: the scheduler partitions the records into consecutive,
non-overlapping batches of exactly `B` records in original order, runs
`floor(N/B)` batches, never passes the trailing `N mod B` records to the
collaborator, and — absent a cost cutoff, with one result per input
record — collects `B * floor(N/B)` results. -/
theorem batch_scheduler_partition (records : List α) (B : Nat) (limit : Int)
    (driver : List α → List β × Int) (_hB : 0 < B) :
    (mkBatches records B).length = records.length / B ∧
    (mkBatches records B).flatten = records.take (B * (records.length / B)) ∧
    ((∀ b, ((driver b).1).length = b.length) →
     (∀ j, j < records.length / B →
        ((batchCosts records B driver).take j).sum ≤ limit) →
     execCount limit 0 (batchCosts records B driver) = records.length / B ∧
     (run_simulation records B limit driver).1.length
        = B * (records.length / B)) := by
  have hlen : (mkBatches records B).length = records.length / B := by
    simp [mkBatches]
  refine ⟨hlen, ?_, ?_⟩
  · rw [mkBatches, mkBatches_flatten_take records B _ (Nat.div_mul_le_self _ _),
      Nat.mul_comm]
  · intro hdriver hpre
    have hcslen : (batchCosts records B driver).length = records.length / B := by
      simp [batchCosts, hlen]
    have hk : execCount limit 0 (batchCosts records B driver)
        = records.length / B := by
      rw [execCount_eq_length limit _ 0, hcslen]
      intro j hj
      rw [hcslen] at hj
      simpa using hpre j hj
    refine ⟨hk, ?_⟩
    rw [run_simulation, runLoop_eq]
    simp only [List.nil_append]
    rw [show ((mkBatches records B).map fun b => (driver b).2)
          = batchCosts records B driver from rfl, hk, ← hlen,
      List.take_length, List.length_flatten, List.map_map]
    have hmap : (mkBatches records B).map
          (List.length ∘ fun b => (driver b).1)
        = (mkBatches records B).map (fun _ => B) := by
      apply List.map_congr_left
      intro b hb
      simp [hdriver b, mkBatches_length_eq records B b hb]
    rw [hmap, List.map_const', List.sum_replicate, smul_eq_mul, hlen,
      Nat.mul_comm]

/-- Concrete witness for `batch_scheduler_partition`: three records, batch
size two, a zero-cost driver returning its batch. -/
theorem batch_scheduler_partition_witness :
    0 < 2 ∧
    (run_simulation ([0, 1, 2] : List Nat) 2 0 (fun b => (b, (0 : Int)))).1.length
      = 2 * ([0, 1, 2].length / 2) :=
  ⟨by decide,
   ((batch_scheduler_partition [0, 1, 2] 2 0 (fun b => (b, 0)) (by decide)).2.2
      (fun _ => rfl)
      (by
        intro j hj
        have : j = 0 := by simpa using hj
        subst this
        simp)).2⟩

/-- C2: the cost gate is checked before each batch on the cost accumulated
from prior completed batches; the collected results are exactly those of
the `execCount` fully completed batches; once a prefix cost sum exceeds
the limit at most that many batches run; and (with non-negative costs) a
batch whose pre-check sees a cumulative cost at most the limit — equality
included — still runs. -/
theorem cost_gate (records : List α) (B : Nat) (limit : Int)
    (driver : List α → List β × Int) :
    ((run_simulation records B limit driver).1 =
      (((mkBatches records B).take
          (execCount limit 0 (batchCosts records B driver))).map
        fun b => (driver b).1).flatten ∧
     (run_simulation records B limit driver).2 =
      ((batchCosts records B driver).take
          (execCount limit 0 (batchCosts records B driver))).sum) ∧
    (∀ j, limit < ((batchCosts records B driver).take j).sum →
      execCount limit 0 (batchCosts records B driver) ≤ j) ∧
    (∀ j, (∀ c ∈ batchCosts records B driver, 0 ≤ c) →
      j < (batchCosts records B driver).length →
      ((batchCosts records B driver).take j).sum ≤ limit →
      j < execCount limit 0 (batchCosts records B driver)) := by
  refine ⟨?_, ?_, ?_⟩
  · rw [run_simulation, runLoop_eq]
    constructor
    · simp [batchCosts]
    · simp [batchCosts]
  · intro j hj
    exact execCount_le_of_exceeds limit _ 0 j (by simpa using hj)
  · intro j hnn hj hsum
    exact lt_execCount_of_within limit _ 0 j hnn hj (by simpa using hsum)

/-- Concrete witness for `cost_gate`: two one-record batches of cost 2 each
against limit 1 — the first runs (pre-check 0 ≤ 1), the second does not
(pre-check 2 > 1). -/
theorem cost_gate_witness :
    ((1 : Int) < ((batchCosts [5, 6] 1 (fun b => (b, (2 : Int)))).take 1).sum ∧
     execCount 1 0 (batchCosts [5, 6] 1 (fun b => (b, (2 : Int)))) ≤ 1) ∧
    ((∀ c ∈ batchCosts [5, 6] 1 (fun b => (b, (2 : Int))), 0 ≤ c) ∧
     0 < (batchCosts [5, 6] 1 (fun b => (b, (2 : Int)))).length ∧
     ((batchCosts [5, 6] 1 (fun b => (b, (2 : Int)))).take 0).sum ≤ 1 ∧
     0 < execCount 1 0 (batchCosts [5, 6] 1 (fun b => (b, (2 : Int))))) :=
  ⟨⟨by decide,
    (cost_gate [5, 6] 1 1 (fun b => (b, 2))).2.1 1 (by decide)⟩,
   by decide, by decide, by decide,
   (cost_gate [5, 6] 1 1 (fun b => (b, 2))).2.2 0 (by decide) (by decide)
     (by decide)⟩

/-! ## Results aggregator (`SimulatorExecutor.analyze_results`)

Source (simulator_executor.py, lines 109-126):

    all_rows = []
    for r in results:
        cur_event = self.dataset_handler.records[r['event_id'] - 1]
        score = False if 'FAILURE' in r['res']['user_messages'][-1] else True
        cur_row = {'id': r['event_id'], 'thread_id': r['res']['thread_id'],
                   'score': score,
                   'reason': r['res']['user_thoughts'][-1],
                   'scenario': cur_event.scenario,
                   'expected_behaviour': cur_event.description.expected_behaviour,
                   'challenge_level': cur_event.description.challenge_level,
                   'policies': cur_event.description.policies}
        all_rows.append(cur_row)

Python list indexing (`records[...]`, `[-1]`) is modelled faithfully,
negative-index wrap-around included; an out-of-range index makes the whole
aggregation fail (`none`), matching the uncaught `IndexError`. -/

/-- The metadata a dataset record carries via its `description`. -/
structure Description where
  expected_behaviour : String
  challenge_level : Nat
  policies : List String
  deriving DecidableEq, Repr

/-- One dataset record (scenario plus its description). -/
structure Record where
  scenario : String
  description : Description
  deriving DecidableEq, Repr

/-- The `res` payload of one per-scenario result of the dialogue
collaborator. -/
structure DialogRes where
  thread_id : String
  user_messages : List String
  user_thoughts : List String
  deriving DecidableEq, Repr

/-- One per-scenario result (`{'event_id': ..., 'res': ...}`). -/
structure BatchRes where
  event_id : Nat
  res : DialogRes
  deriving DecidableEq, Repr

/-- One row of the final report. -/
structure ReportRow where
  id : Nat
  thread_id : String
  score : Bool
  reason : String
  scenario : String
  expected_behaviour : String
  challenge_level : Nat
  policies : List String
  deriving DecidableEq, Repr

/-- Python list indexing `l[i]`: a negative index is offset by the length
(wrap-around); an index out of `[-len, len)` is an `IndexError` (`none`). -/
def pyGet? (l : List α) (i : Int) : Option α :=
  let j : Int := if 0 ≤ i then i else i + l.length
  if 0 ≤ j then l[j.toNat]? else none

/-- Python substring membership `needle in hay`. -/
def pyIn (needle hay : String) : Bool :=
  decide (needle.data <:+: hay.data)

/-- One iteration of the `analyze_results` loop: build the report row for
one result, failing (`none`) on an out-of-range `event_id` or an empty
message/thought list (an uncaught `IndexError` in the source). -/
def analyzeRow (records : List Record) (r : BatchRes) : Option ReportRow := do
  let cur_event ← pyGet? records ((r.event_id : Int) - 1)
  let lastMsg ← r.res.user_messages.getLast?
  let lastThought ← r.res.user_thoughts.getLast?
  let score := if pyIn "FAILURE" lastMsg then false else true
  return { id := r.event_id, thread_id := r.res.thread_id, score := score,
           reason := lastThought, scenario := cur_event.scenario,
           expected_behaviour := cur_event.description.expected_behaviour,
           challenge_level := cur_event.description.challenge_level,
           policies := cur_event.description.policies }

/-- `analyze_results`: the rows of the report, in loop order; `none` when
any iteration raises. -/
def analyze_results (records : List Record) : List BatchRes → Option (List ReportRow)
  | [] => some []
  | r :: rest => do
    let row ← analyzeRow records r
    let rows ← analyze_results records rest
    return row :: rows

/-- The fields of a successfully built report row, in terms of its input
result. -/
theorem analyzeRow_fields (records : List Record) (r : BatchRes)
    (row : ReportRow) (h : analyzeRow records r = some row) :
    (∀ m, r.res.user_messages.getLast? = some m →
      (row.score = false ↔ "FAILURE".data <:+: m.data)) ∧
    (∀ t, r.res.user_thoughts.getLast? = some t → row.reason = t) ∧
    row.id = r.event_id ∧ row.thread_id = r.res.thread_id := by
  unfold analyzeRow at h
  cases hg : pyGet? records ((r.event_id : Int) - 1) with
  | none => rw [hg] at h; simp at h
  | some ev =>
    rw [hg] at h
    cases hm : r.res.user_messages.getLast? with
    | none => rw [hm] at h; simp at h
    | some m =>
      rw [hm] at h
      cases ht : r.res.user_thoughts.getLast? with
      | none => rw [ht] at h; simp at h
      | some t =>
        rw [ht] at h
        simp only [Option.bind_eq_bind, Option.some_bind, Option.pure_def,
          Option.some.injEq] at h
        subst h
        refine ⟨?_, ?_, rfl, rfl⟩
        · intro m' hm'
          cases hm'
          have hiff : pyIn "FAILURE" m = true ↔ "FAILURE".data <:+: m.data := by
            simp [pyIn]
          show (if pyIn "FAILURE" m = true then false else true) = false ↔ _
          by_cases hp : "FAILURE".data <:+: m.data
          · rw [if_pos (hiff.mpr hp)]
            exact ⟨fun _ => hp, fun _ => rfl⟩
          · rw [if_neg (fun hc => hp (hiff.mp hc))]
            exact ⟨fun hc => absurd hc (by simp), fun hc => absurd hc hp⟩
        · intro t' ht'
          cases ht'
          rfl

/-- C4: each report row is built from the result at the same position
(order preserved, no sorting, deduplication or grouping); its score is
`false` exactly when `"FAILURE"` occurs as a substring of the last
user-side message; its reason is the last recorded user thought. -/
theorem aggregator_scoring (records : List Record) (results : List BatchRes)
    (rows : List ReportRow) (h : analyze_results records results = some rows) :
    List.Forall₂ (fun (r : BatchRes) (row : ReportRow) =>
      analyzeRow records r = some row ∧
      (∀ m, r.res.user_messages.getLast? = some m →
        (row.score = false ↔ "FAILURE".data <:+: m.data)) ∧
      (∀ t, r.res.user_thoughts.getLast? = some t → row.reason = t) ∧
      row.id = r.event_id ∧ row.thread_id = r.res.thread_id)
      results rows := by
  induction results generalizing rows with
  | nil =>
    simp only [analyze_results, Option.some.injEq] at h
    subst h
    exact List.Forall₂.nil
  | cons r rest ih =>
    simp only [analyze_results] at h
    cases h1 : analyzeRow records r with
    | none => rw [h1] at h; simp at h
    | some row =>
      rw [h1] at h
      cases h2 : analyze_results records rest with
      | none =>
        rw [h2] at h
        simp only [Option.bind_eq_bind, Option.some_bind, Option.bind_none] at h
        exact absurd h (by simp)
      | some rows' =>
        rw [h2] at h
        simp only [Option.bind_eq_bind, Option.some_bind, Option.pure_def,
          Option.some.injEq] at h
        subst h
        exact List.Forall₂.cons ⟨h1, analyzeRow_fields records r row h1⟩
          (ih rows' h2)

/-- Concrete witness for `aggregator_scoring`: one record, two results —
one whose last message contains `"FAILURE"` (scored `false`), one without
(scored `true`). -/
theorem aggregator_scoring_witness :
    analyze_results [⟨"sc1", ⟨"eb", 2, ["p"]⟩⟩]
        [⟨1, ⟨"t1", ["Done, thanks!"], ["ok"]⟩⟩,
         ⟨1, ⟨"t2", ["Sorry, FAILURE: could not complete"], ["bad"]⟩⟩]
      = some [⟨1, "t1", true, "ok", "sc1", "eb", 2, ["p"]⟩,
              ⟨1, "t2", false, "bad", "sc1", "eb", 2, ["p"]⟩] ∧
    List.Forall₂ (fun (r : BatchRes) (row : ReportRow) =>
      analyzeRow [⟨"sc1", ⟨"eb", 2, ["p"]⟩⟩] r = some row ∧
      (∀ m, r.res.user_messages.getLast? = some m →
        (row.score = false ↔ "FAILURE".data <:+: m.data)) ∧
      (∀ t, r.res.user_thoughts.getLast? = some t → row.reason = t) ∧
      row.id = r.event_id ∧ row.thread_id = r.res.thread_id)
      [⟨1, ⟨"t1", ["Done, thanks!"], ["ok"]⟩⟩,
       ⟨1, ⟨"t2", ["Sorry, FAILURE: could not complete"], ["bad"]⟩⟩]
      [⟨1, "t1", true, "ok", "sc1", "eb", 2, ["p"]⟩,
       ⟨1, "t2", false, "bad", "sc1", "eb", 2, ["p"]⟩] :=
  ⟨by decide, aggregator_scoring _ _ _ (by decide)⟩

/-- A non-negative Python index is plain zero-based indexing. -/
theorem pyGet?_nonneg (l : List α) (i : Int) (h : 0 ≤ i) :
    pyGet? l i = l[i.toNat]? := by
  simp only [pyGet?]
  rw [if_pos h, if_pos h]

/-- Python index `-1` wraps around to the last element of the list. -/
theorem pyGet?_neg_one (l : List α) : pyGet? l (-1) = l.getLast? := by
  cases l with
  | nil => simp [pyGet?]
  | cons a t =>
    simp only [pyGet?, List.length_cons, List.getLast?_eq_getElem?]
    have h1 : ¬ ((0 : Int) ≤ -1) := by norm_num
    rw [if_neg h1]
    rw [if_pos (show (0 : Int) ≤ -1 + ((t.length + 1 : Nat) : Int) by
      push_cast; omega)]
    congr 1
    push_cast
    omega

/-- A scenario identifier greater than the record count makes the row
lookup raise (`none`). -/
theorem analyzeRow_none_of_gt (records : List Record) (r : BatchRes)
    (h : records.length < r.event_id) : analyzeRow records r = none := by
  have hg : pyGet? records ((r.event_id : Int) - 1) = none := by
    rw [pyGet?_nonneg records _ (by omega)]
    apply List.getElem?_eq_none
    omega
  simp [analyzeRow, hg]

/-- One raising iteration makes the whole aggregation raise: the failure is
fatal, not a reported per-row failure. -/
theorem analyze_results_none_of_mem (records : List Record) :
    ∀ (results : List BatchRes) (r : BatchRes), r ∈ results →
      analyzeRow records r = none → analyze_results records results = none := by
  intro results
  induction results with
  | nil => intro r hr; simp at hr
  | cons a rest ih =>
    intro r hr hnone
    rcases List.mem_cons.mp hr with h | h
    · subst h; simp [analyze_results, hnone]
    · simp only [analyze_results]
      cases h1 : analyzeRow records a with
      | none => simp
      | some row =>
        simp [ih r h hnone]

/-- Counterexample to C5 as stated: scenario identifier `0` is *not* a
fatal indexing error — Python index `-1` wraps around, so the row is built
from the **last** record of a non-empty dataset. -/
theorem event_id_zero_not_fatal :
    analyze_results [⟨"first", ⟨"e1", 1, []⟩⟩, ⟨"last", ⟨"e2", 2, []⟩⟩]
        [⟨0, ⟨"t", ["m"], ["th"]⟩⟩]
      = some [⟨0, "t", true, "th", "last", "e2", 2, []⟩] := by decide

/-- C5 (amended): the record is looked up at Python index `eventId - 1`;
an identifier greater than the record count is a fatal error aborting the
whole aggregation; an identifier of at least 1 is the dense 1-based lookup
`records[eventId - 1]`; identifier 0 wraps around to the last record
(fatal only on an empty dataset). -/
theorem indexing_contract (records : List Record) (results : List BatchRes)
    (r : BatchRes) :
    (r ∈ results → records.length < r.event_id →
      analyze_results records results = none) ∧
    (1 ≤ r.event_id →
      pyGet? records ((r.event_id : Int) - 1) = records[r.event_id - 1]?) ∧
    (r.event_id = 0 →
      pyGet? records ((r.event_id : Int) - 1) = records.getLast?) := by
  refine ⟨?_, ?_, ?_⟩
  · intro hr hgt
    exact analyze_results_none_of_mem records results r hr
      (analyzeRow_none_of_gt records r hgt)
  · intro h1
    rw [pyGet?_nonneg records _ (by omega)]
    congr 1
    omega
  · intro h0
    rw [h0]
    norm_num
    exact pyGet?_neg_one records

/-- Concrete witness for `indexing_contract`: identifier 5 against a
one-record dataset aborts the aggregation; identifier 1 reads
`records[0]`; identifier 0 reads the last record. -/
theorem indexing_contract_witness :
    ((⟨5, ⟨"t", ["m"], ["th"]⟩⟩ : BatchRes) ∈
        [(⟨5, ⟨"t", ["m"], ["th"]⟩⟩ : BatchRes)] ∧
     ([⟨"a", ⟨"e", 1, []⟩⟩] : List Record).length < 5 ∧
     analyze_results [⟨"a", ⟨"e", 1, []⟩⟩] [⟨5, ⟨"t", ["m"], ["th"]⟩⟩]
       = none) ∧
    (1 ≤ (1 : Nat) ∧
     pyGet? ([⟨"a", ⟨"e", 1, []⟩⟩] : List Record) (((1 : Nat) : Int) - 1)
       = ([⟨"a", ⟨"e", 1, []⟩⟩] : List Record)[(1 : Nat) - 1]?) ∧
     pyGet? ([⟨"a", ⟨"e", 1, []⟩⟩] : List Record) (((0 : Nat) : Int) - 1)
       = ([⟨"a", ⟨"e", 1, []⟩⟩] : List Record).getLast? :=
  ⟨⟨by decide, by decide,
    (indexing_contract [⟨"a", ⟨"e", 1, []⟩⟩] [⟨5, ⟨"t", ["m"], ["th"]⟩⟩]
        ⟨5, ⟨"t", ["m"], ["th"]⟩⟩).1 (by decide) (by decide)⟩,
   ⟨by decide,
    (indexing_contract [⟨"a", ⟨"e", 1, []⟩⟩] []
        ⟨1, ⟨"t", ["m"], ["th"]⟩⟩).2.1 (by decide)⟩,
   (indexing_contract [⟨"a", ⟨"e", 1, []⟩⟩] []
       ⟨0, ⟨"t", ["m"], ["th"]⟩⟩).2.2 (by decide)⟩

/-! ### The spec's end-to-end example (5 records, batch size 2, limit 10)

With 5 records and `mini_batch_size = 2`, `num_batch = 5 // 2 = 2`: only
two batches exist, charging costs 3 and 4. -/

/-- The five records of the example dataset. -/
def exRecords : List Record :=
  [⟨"s1", ⟨"eb", 1, ["p"]⟩⟩, ⟨"s2", ⟨"eb", 1, ["p"]⟩⟩,
   ⟨"s3", ⟨"eb", 1, ["p"]⟩⟩, ⟨"s4", ⟨"eb", 1, ["p"]⟩⟩,
   ⟨"s5", ⟨"eb", 1, ["p"]⟩⟩]

/-- The 1-based identifier of an example record. -/
def exId (s : String) : Nat :=
  if s = "s1" then 1 else if s = "s2" then 2 else if s = "s3" then 3
  else if s = "s4" then 4 else 5

/-- The example dialogue collaborator: one result per record and the
incremental batch costs 3, 4, 5 of the spec's example, by batch. -/
def exDriver (b : List Record) : List BatchRes × Int :=
  (b.map (fun r => ⟨exId r.scenario, ⟨"t", ["done"], ["fine"]⟩⟩),
   if (b.map Record.scenario).contains "s1" then 3
   else if (b.map Record.scenario).contains "s3" then 4 else 5)

/-- Counterexample to C3 as stated: on the example input the scheduler runs
2 batches (not 3) and accumulates a total cost of 7 (not 12). -/
theorem example_run_not_three_batches :
    execCount 10 0 (batchCosts exRecords 2 exDriver) = 2 ∧ (2 : Nat) ≠ 3 ∧
    (run_simulation exRecords 2 10 exDriver).2 = 7 ∧ (7 : Int) ≠ 12 := by
  refine ⟨by decide, by decide, by decide, by decide⟩

/-- C3 (amended): on the example input there are `5 / 2 = 2` batches, the
pre-checks see cumulative costs 0 and 3 (both at most 10), both batches
run for a final total cost of 7, record 5 (the remainder) is never
batched, and the report has exactly 4 rows. -/
theorem example_run_correct :
    (mkBatches exRecords 2).length = 2 ∧
    batchCosts exRecords 2 exDriver = [3, 4] ∧
    execCount 10 0 (batchCosts exRecords 2 exDriver) = 2 ∧
    (run_simulation exRecords 2 10 exDriver).2 = 7 ∧
    (mkBatches exRecords 2).flatten = exRecords.take 4 ∧
    (analyze_results exRecords
        (run_simulation exRecords 2 10 exDriver).1).map List.length
      = some 4 := by
  refine ⟨by decide, by decide, by decide, by decide, by decide, by decide⟩

/-! ## Workspace manager (`SimulatorExecutor.set_output_folder`) and
checkpointed catalogue builder (`SimulatorExecutor.__init__`)

Source (simulator_executor.py, lines 129-143):

    description_generator_path = None
    if not os.path.exists(output_path):
        os.makedirs(output_path)
    if not os.path.exists(os.path.join(output_path, 'policies_graph')):
        os.makedirs(os.path.join(output_path, 'policies_graph'))
    if not os.path.exists(os.path.join(output_path, 'datasets')):
        os.makedirs(os.path.join(output_path, 'datasets'))
    if not os.path.exists(os.path.join(output_path, 'experiments')):
        os.makedirs(os.path.join(output_path, 'experiments'))
    if os.path.isfile(os.path.join(output_path, 'policies_graph',
                                   'descriptions_generator.pickle')):
        description_generator_path = os.path.join(...)
    return description_generator_path

and lines 30-43 of `__init__`: when `description_generator_path is None`
the `DescriptionGenerator` is built from the configuration and pickled to
the fixed path; otherwise the pickle at that path is loaded.

The filesystem is modelled as a list of existing directory paths plus an
association list of file paths to contents (the pickled artifact of type
`α`); a path is a list of components, so `os.path.join` is `++`.
`os.makedirs` records the new directory (creation of intermediate
directories is unobservable here because the root is always ensured
first). -/

/-- A filesystem state: existing directories and files-with-contents. -/
structure FS (α : Type) where
  dirs : List (List String)
  files : List (List String × α)
  deriving Repr

/-- `os.path.isfile`. -/
def isFile (fs : FS α) (p : List String) : Bool :=
  decide (p ∈ fs.files.map Prod.fst)

/-- `os.path.exists` (true for directories and files alike). -/
def pathExists (fs : FS α) (p : List String) : Bool :=
  decide (p ∈ fs.dirs) || isFile fs p

/-- Reading (unpickling) the file stored at a path. -/
def readFile (fs : FS α) (p : List String) : Option α :=
  (fs.files.find? (fun e => e.1 = p)).map Prod.snd

/-- `os.makedirs`. -/
def makedirs (fs : FS α) (p : List String) : FS α :=
  { fs with dirs := p :: fs.dirs }

/-- The guarded creation pattern `if not os.path.exists(p): os.makedirs(p)`. -/
def ensureDir (fs : FS α) (p : List String) : FS α :=
  if pathExists fs p then fs else makedirs fs p

/-- The fixed well-known path of the catalogue artifact. -/
def picklePath (output_path : List String) : List String :=
  output_path ++ ["policies_graph", "descriptions_generator.pickle"]

/-- `set_output_folder`: ensure the root and the three sub-areas exist and
report the artifact path when the catalogue artifact is already present. -/
def set_output_folder (fs : FS α) (output_path : List String) :
    FS α × Option (List String) :=
  let fs := ensureDir fs output_path
  let fs := ensureDir fs (output_path ++ ["policies_graph"])
  let fs := ensureDir fs (output_path ++ ["datasets"])
  let fs := ensureDir fs (output_path ++ ["experiments"])
  (fs, if isFile fs (picklePath output_path) then some (picklePath output_path)
       else none)

/-- The checkpointed catalogue builder of `__init__`: run
`set_output_folder`, then either load the existing artifact (zero
generation calls) or generate from the configuration and persist exactly
one artifact at the fixed path (one generation call). Returns the new
filesystem, the artifact and the number of generation invocations. -/
def obtainCore (sof : FS α × Option (List String)) (output_path : List String)
    (generate : κ → α) (cfg : κ) : FS α × Option α × Nat :=
  match sof.2 with
  | none =>
    let artifact := generate cfg
    ({ sof.1 with files := (picklePath output_path, artifact) :: sof.1.files },
     some artifact, 1)
  | some p => (sof.1, readFile sof.1 p, 0)

/-- `obtain`: the builder applied to the workspace-manager outcome. -/
def obtain (fs : FS α) (output_path : List String) (generate : κ → α)
    (cfg : κ) : FS α × Option α × Nat :=
  obtainCore (set_output_folder fs output_path) output_path generate cfg

/-- `ensureDir` never touches files. -/
theorem ensureDir_files (fs : FS α) (p : List String) :
    (ensureDir fs p).files = fs.files := by
  unfold ensureDir makedirs
  split <;> rfl

/-- After `ensureDir fs p` the path `p` exists. -/
theorem pathExists_ensureDir_self (fs : FS α) (p : List String) :
    pathExists (ensureDir fs p) p = true := by
  unfold ensureDir
  split
  next h => exact h
  next => simp [pathExists, makedirs]

/-- `ensureDir` preserves every existing path. -/
theorem pathExists_ensureDir_mono (fs : FS α) (p q : List String)
    (h : pathExists fs q = true) : pathExists (ensureDir fs p) q = true := by
  unfold ensureDir
  split
  next => exact h
  next =>
    simp only [pathExists, makedirs, isFile, Bool.or_eq_true,
      decide_eq_true_eq, List.mem_cons] at h ⊢
    tauto

/-- `isFile` only depends on the files of the state. -/
theorem isFile_eq_of_files {fs g : FS α} (h : fs.files = g.files)
    (p : List String) : isFile fs p = isFile g p := by
  unfold isFile
  rw [h]

/-- `readFile` only depends on the files of the state. -/
theorem readFile_eq_of_files {fs g : FS α} (h : fs.files = g.files)
    (p : List String) : readFile fs p = readFile g p := by
  unfold readFile
  rw [h]

/-- `set_output_folder` creates directories only; files are untouched. -/
theorem set_output_folder_files (fs : FS α) (root : List String) :
    (set_output_folder fs root).1.files = fs.files := by
  simp [set_output_folder, ensureDir_files]

/-- `ensureDir` of an existing path is a no-op, never an error. -/
theorem ensureDir_of_exists (fs : FS α) (p : List String)
    (h : pathExists fs p = true) : ensureDir fs p = fs := by
  simp [ensureDir, h]

/-- The second component of `set_output_folder` is the artifact-presence
check on the (unchanged) files. -/
theorem set_output_folder_snd (fs : FS α) (root : List String) :
    (set_output_folder fs root).2
      = if isFile fs (picklePath root) then some (picklePath root)
        else none := by
  have h0 : (set_output_folder fs root).2
      = if isFile (set_output_folder fs root).1 (picklePath root)
        then some (picklePath root) else none := rfl
  rw [h0, isFile_eq_of_files (set_output_folder_files fs root)]

/-- C7: running the workspace manager twice in a row is idempotent — the
second call creates no directories (its state output is exactly the first
call's state) and reports the existing-catalogue indication matching the
true state of the filesystem. -/
theorem set_output_folder_idempotent (fs : FS α) (root : List String) :
    set_output_folder (set_output_folder fs root).1 root
      = ((set_output_folder fs root).1,
         if isFile (set_output_folder fs root).1 (picklePath root)
           then some (picklePath root) else none) := by
  have hdef : (set_output_folder fs root).1
      = ensureDir (ensureDir (ensureDir (ensureDir fs root)
          (root ++ ["policies_graph"])) (root ++ ["datasets"]))
          (root ++ ["experiments"]) := rfl
  have h1 : pathExists (set_output_folder fs root).1 root = true := by
    rw [hdef]
    exact pathExists_ensureDir_mono _ _ _ (pathExists_ensureDir_mono _ _ _
      (pathExists_ensureDir_mono _ _ _ (pathExists_ensureDir_self fs root)))
  have h2 : pathExists (set_output_folder fs root).1
      (root ++ ["policies_graph"]) = true := by
    rw [hdef]
    exact pathExists_ensureDir_mono _ _ _ (pathExists_ensureDir_mono _ _ _
      (pathExists_ensureDir_self _ _))
  have h3 : pathExists (set_output_folder fs root).1
      (root ++ ["datasets"]) = true := by
    rw [hdef]
    exact pathExists_ensureDir_mono _ _ _ (pathExists_ensureDir_self _ _)
  have h4 : pathExists (set_output_folder fs root).1
      (root ++ ["experiments"]) = true := by
    rw [hdef]
    exact pathExists_ensureDir_self _ _
  generalize (set_output_folder fs root).1 = fs1 at h1 h2 h3 h4 ⊢
  simp only [set_output_folder]
  rw [ensureDir_of_exists _ _ h1, ensureDir_of_exists _ _ h2,
    ensureDir_of_exists _ _ h3, ensureDir_of_exists _ _ h4]

/-- C6: the checkpointed catalogue builder loads the stored artifact
untouched and calls generation zero times when `set_output_folder` reports
an artifact (for any configuration, which is ignored); when it reports
none, it calls generation exactly once and persists exactly one artifact
at the fixed well-known path. -/
theorem catalogue_checkpoint (fs : FS α) (root : List String)
    (generate : κ → α) (cfg : κ) :
    ((set_output_folder fs root).2 = none →
      obtain fs root generate cfg
        = ({ (set_output_folder fs root).1 with
             files := (picklePath root, generate cfg)
               :: (set_output_folder fs root).1.files },
           some (generate cfg), 1)) ∧
    (∀ p, (set_output_folder fs root).2 = some p →
      obtain fs root generate cfg
        = ((set_output_folder fs root).1,
           readFile fs (picklePath root), 0)) ∧
    (∀ (cfg' : κ) p, (set_output_folder fs root).2 = some p →
      obtain fs root generate cfg = obtain fs root generate cfg') := by
  have hsome : ∀ (c : κ) p, (set_output_folder fs root).2 = some p →
      obtain fs root generate c
        = ((set_output_folder fs root).1,
           readFile fs (picklePath root), 0) := by
    intro c p hp
    have hpp : p = picklePath root := by
      rw [set_output_folder_snd] at hp
      by_cases hf : isFile fs (picklePath root)
      · rw [if_pos hf] at hp
        exact (Option.some.inj hp).symm
      · rw [if_neg hf] at hp
        exact absurd hp (by simp)
    subst hpp
    have hsplit : set_output_folder fs root
        = ((set_output_folder fs root).1, some (picklePath root)) := by
      rw [← hp]
    unfold obtain
    rw [hsplit]
    show ((set_output_folder fs root).1,
      readFile (set_output_folder fs root).1 (picklePath root), 0) = _
    rw [readFile_eq_of_files (set_output_folder_files fs root)
      (picklePath root)]
  refine ⟨?_, hsome cfg, ?_⟩
  · intro h
    have hsplit : set_output_folder fs root
        = ((set_output_folder fs root).1, none) := by
      rw [← h]
    unfold obtain
    rw [hsplit]
    rfl
  · intro cfg' p hp
    rw [hsome cfg p hp, hsome cfg' p hp]

/-- Concrete witness for `catalogue_checkpoint`: an empty workspace builds
and persists the artifact once; a workspace that already holds one loads
it with zero generation calls. -/
theorem catalogue_checkpoint_witness :
    ((set_output_folder (⟨[], []⟩ : FS Nat) ["out"]).2 = none ∧
     obtain (⟨[], []⟩ : FS Nat) ["out"] (fun c => c + 1) 41
       = ({ (set_output_folder (⟨[], []⟩ : FS Nat) ["out"]).1 with
            files := (picklePath ["out"], 42)
              :: (set_output_folder (⟨[], []⟩ : FS Nat) ["out"]).1.files },
          some 42, 1)) ∧
    ((set_output_folder (⟨[], [(picklePath ["out"], 7)]⟩ : FS Nat)
        ["out"]).2 = some (picklePath ["out"]) ∧
     obtain (⟨[], [(picklePath ["out"], 7)]⟩ : FS Nat) ["out"]
        (fun c => c + 1) 41
       = ((set_output_folder (⟨[], [(picklePath ["out"], 7)]⟩ : FS Nat)
             ["out"]).1,
          readFile (⟨[], [(picklePath ["out"], 7)]⟩ : FS Nat)
            (picklePath ["out"]), 0)) :=
  ⟨⟨by decide,
    (catalogue_checkpoint (⟨[], []⟩ : FS Nat) ["out"] (fun c => c + 1) 41).1
      (by decide)⟩,
   ⟨by decide,
    (catalogue_checkpoint (⟨[], [(picklePath ["out"], 7)]⟩ : FS Nat) ["out"]
        (fun c => c + 1) 41).2.1 (picklePath ["out"]) (by decide)⟩⟩

/-! ## "Latest" dataset resolution (`get_latest_file`) -/

/-- Split a character list on a separator character, Python-`str.split`
style (adjacent separators yield empty tokens). -/
def splitOnChar (sep : Char) : List Char → List (List Char)
  | [] => [[]]
  | c :: rest =>
    let r := splitOnChar sep rest
    if c = sep then [] :: r
    else
      match r with
      | [] => [[c]]
      | t :: ts => (c :: t) :: ts

/-- Parse a non-empty all-digit token as a natural number. -/
def digitsToNat? (cs : List Char) : Option Nat :=
  if cs = [] then none
  else
    cs.foldl
      (fun acc c =>
        match acc with
        | none => none
        | some n => if c.isDigit then some (n * 10 + (c.toNat - 48)) else none)
      (some 0)

/-- Modelled from the spec: the dataset-name timestamp. The helper
`simulator.utils.file_reading.get_latest_file` used at
simulator_executor.py line 60 is not part of the given sources; per the
spec, dataset names embed a `DD_MM_YYYY_HH_MM_SS` timestamp
(`<freeform>__<DD_MM_YYYY_HH_MM_SS>`), interpreted as a calendar
date-time. The last six `_`-separated tokens of the name are read as
day, month, year, hour, minute, second and encoded so that the calendar
order (year, month, day, hour, minute, second) is the numeric order;
a malformed name counts as the minimal timestamp. -/
def timestampVal (name : String) : Nat :=
  let toks := splitOnChar '_' name.data
  match toks.drop (toks.length - 6) with
  | [d, m, y, h, mi, s] =>
    match digitsToNat? d, digitsToNat? m, digitsToNat? y,
        digitsToNat? h, digitsToNat? mi, digitsToNat? s with
    | some d, some m, some y, some h, some mi, some s =>
      ((((y * 13 + m) * 32 + d) * 25 + h) * 61 + mi) * 61 + s
    | _, _, _, _, _, _ => 0
  | _ => 0

/-- Modelled from the spec: `get_latest_file` scans the dataset area and,
if non-empty, picks the name with the greatest embedded timestamp; on an
empty area it reports `none` (the caller then synthesizes a fresh
name). -/
def get_latest_file : List String → Option String
  | [] => none
  | n :: rest =>
    some (rest.foldl
      (fun acc m => if timestampVal acc < timestampVal m then m else acc) n)

/-- The fold underlying `get_latest_file` returns its accumulator or a
list element. -/
theorem latest_fold_mem (names : List String) :
    ∀ a, (names.foldl
        (fun acc m => if timestampVal acc < timestampVal m then m else acc) a)
      = a ∨
      (names.foldl
        (fun acc m => if timestampVal acc < timestampVal m then m else acc) a)
      ∈ names := by
  induction names with
  | nil => intro a; exact Or.inl rfl
  | cons n rest ih =>
    intro a
    simp only [List.foldl_cons]
    by_cases h : timestampVal a < timestampVal n
    · rw [if_pos h]
      rcases ih n with h' | h'
      · right
        rw [h']
        exact List.mem_cons_self n rest
      · exact Or.inr (List.mem_cons_of_mem n h')
    · rw [if_neg h]
      rcases ih a with h' | h'
      · exact Or.inl h'
      · exact Or.inr (List.mem_cons_of_mem n h')

/-- The fold underlying `get_latest_file` maximizes the timestamp over the
accumulator and all list elements. -/
theorem latest_fold_ge (names : List String) :
    ∀ a, timestampVal a ≤ timestampVal
        (names.foldl
          (fun acc m => if timestampVal acc < timestampVal m then m else acc)
          a) ∧
      ∀ n ∈ names, timestampVal n ≤ timestampVal
        (names.foldl
          (fun acc m => if timestampVal acc < timestampVal m then m else acc)
          a) := by
  induction names with
  | nil => intro a; exact ⟨le_refl _, by simp⟩
  | cons n rest ih =>
    intro a
    simp only [List.foldl_cons]
    by_cases h : timestampVal a < timestampVal n
    · rw [if_pos h]
      refine ⟨le_trans (le_of_lt h) (ih n).1, ?_⟩
      intro x hx
      rcases List.mem_cons.mp hx with h' | h'
      · exact h' ▸ (ih n).1
      · exact (ih n).2 x h'
    · rw [if_neg h]
      refine ⟨(ih a).1, ?_⟩
      intro x hx
      rcases List.mem_cons.mp hx with h' | h'
      · exact h' ▸ le_trans (le_of_not_lt h) (ih a).1
      · exact (ih a).2 x h'

/-- C8: over a non-empty list of names, `get_latest_file` selects a name
whose embedded timestamp is greatest; on the spec's example pair the later
calendar date wins regardless of the time-of-day ordering within the
string. -/
theorem latest_dataset_resolution :
    (∀ (names : List String), names ≠ [] →
      ∃ best, get_latest_file names = some best ∧ best ∈ names ∧
        ∀ n ∈ names, timestampVal n ≤ timestampVal best) ∧
    get_latest_file ["d__01_01_2024_10_00_00", "d__02_01_2024_09_00_00"]
      = some "d__02_01_2024_09_00_00" := by
  constructor
  · intro names hne
    match names with
    | [] => exact absurd rfl hne
    | n :: rest =>
      refine ⟨rest.foldl
        (fun acc m => if timestampVal acc < timestampVal m then m else acc) n,
        rfl, ?_, ?_⟩
      · rcases latest_fold_mem rest n with h | h
        · rw [h]
          exact List.mem_cons_self n rest
        · exact List.mem_cons_of_mem n h
      · intro x hx
        rcases List.mem_cons.mp hx with h | h
        · exact h ▸ (latest_fold_ge rest n).1
        · exact (latest_fold_ge rest n).2 x h
  · decide

/-- Concrete witness for `latest_dataset_resolution`: on the example pair
the chosen name is a member with the greatest timestamp. -/
theorem latest_dataset_resolution_witness :
    (["d__01_01_2024_10_00_00", "d__02_01_2024_09_00_00"] : List String)
        ≠ [] ∧
    ∃ best,
      get_latest_file ["d__01_01_2024_10_00_00", "d__02_01_2024_09_00_00"]
        = some best ∧
      best ∈ ["d__01_01_2024_10_00_00", "d__02_01_2024_09_00_00"] ∧
      ∀ n ∈ ["d__01_01_2024_10_00_00", "d__02_01_2024_09_00_00"],
        timestampVal n ≤ timestampVal best :=
  ⟨by decide,
   latest_dataset_resolution.1
     ["d__01_01_2024_10_00_00", "d__02_01_2024_09_00_00"] (by decide)⟩

/-! ## Retail tool `ModifyPendingOrderAddress.invoke`

Source (`src/examples/retail/input/tools/modify_pending_order_address.py`):

    orders = get_dict_json(data['orders'], 'order_id')
    if order_id not in orders:
        return "Error: order not found"
    order = orders[order_id]
    if order["status"].lower() != "pending":
        return "Error: non-pending order cannot be modified"
    order["address"] = { "address1": address1, ..., "zip": zip }
    update_df(data['orders'], order, 'order_id')
    return json.dumps(order)

An order's fields beyond `order_id`, `status` and `address` are opaque
(`extra : ε`). The result models the returned string as either the error
message or the updated order (whose JSON serialization the source
returns). -/

/-- A shipping address, the seven-field object of the source reduced to
its six address components. -/
structure Address where
  address1 : String
  address2 : String
  city : String
  state : String
  country : String
  zip : String
  deriving DecidableEq, Repr

/-- An order row: its key, status, address, and all other fields opaque. -/
structure Order (ε : Type) where
  order_id : String
  status : String
  address : Address
  extra : ε
  deriving DecidableEq, Repr

/-- Modelled from the spec: `util.get_dict_json(data['orders'],
'order_id')` is not part of the given sources; per its call site it keys
the order rows by `order_id` (a Python dict, so a duplicated key keeps the
last row). `orders[order_id]` is then this lookup. -/
def lookupOrder (orders : List (Order ε)) (oid : String) : Option (Order ε) :=
  (orders.filter (fun o => o.order_id = oid)).getLast?

/-- Modelled from the spec: `util.update_df(data['orders'], order,
'order_id')` is not part of the given sources; per its call site it writes
the updated row back over the row(s) with the same `order_id`, leaving all
other rows in place. -/
def update_df (orders : List (Order ε)) (o' : Order ε) : List (Order ε) :=
  orders.map (fun o => if o.order_id = o'.order_id then o' else o)

/-- Python `str.lower()`, character-wise (order statuses are ASCII). -/
def pyLower (s : String) : String :=
  ⟨s.data.map Char.toLower⟩

/-- `ModifyPendingOrderAddress.invoke`: returns the (possibly updated)
orders data and either an error string or the updated order. -/
def invoke (orders : List (Order ε)) (order_id address1 address2 city
    state country zip : String) : List (Order ε) × (String ⊕ Order ε) :=
  match lookupOrder orders order_id with
  | none => (orders, Sum.inl "Error: order not found")
  | some order =>
    if pyLower order.status ≠ "pending" then
      (orders, Sum.inl "Error: non-pending order cannot be modified")
    else
      let order' := { order with
        address := ⟨address1, address2, city, state, country, zip⟩ }
      (update_df orders order', Sum.inr order')

/-- An unknown `order_id` never reaches the lookup. -/
theorem lookupOrder_eq_none (orders : List (Order ε)) (oid : String)
    (h : ∀ o ∈ orders, o.order_id ≠ oid) : lookupOrder orders oid = none := by
  unfold lookupOrder
  rw [List.filter_eq_nil_iff.mpr]
  · rfl
  · intro o ho
    simp [h o ho]

/-- The looked-up order carries the looked-up key. -/
theorem lookupOrder_id (orders : List (Order ε)) (oid : String)
    (o : Order ε) (h : lookupOrder orders oid = some o) :
    o.order_id = oid := by
  unfold lookupOrder at h
  have hm : o ∈ orders.filter (fun o => o.order_id = oid) :=
    List.mem_of_mem_getLast? h
  simpa using (List.mem_filter.mp hm).2

/-- C9: an unknown `order_id` yields `"Error: order not found"`, a known
order whose status (case-insensitively) is not `"pending"` yields
`"Error: non-pending order cannot be modified"`; in both cases the orders
data is returned unchanged. -/
theorem modify_address_errors (orders : List (Order ε)) (order_id address1
    address2 city state country zip : String) :
    ((∀ o ∈ orders, o.order_id ≠ order_id) →
      invoke orders order_id address1 address2 city state country zip
        = (orders, Sum.inl "Error: order not found")) ∧
    (∀ o, lookupOrder orders order_id = some o →
      pyLower o.status ≠ "pending" →
      invoke orders order_id address1 address2 city state country zip
        = (orders, Sum.inl "Error: non-pending order cannot be modified")) := by
  constructor
  · intro h
    unfold invoke
    rw [lookupOrder_eq_none orders order_id h]
  · intro o ho hs
    unfold invoke
    rw [ho]
    simp only [hs, if_pos, ne_eq, not_false_iff, if_true]

/-- Concrete witness for `modify_address_errors`: an order list without
the key, and one whose order is `"Delivered"`. -/
theorem modify_address_errors_witness :
    ((∀ o ∈ [(⟨"#W1", "pending", ⟨"a", "b", "c", "d", "e", "f"⟩, 0⟩ :
        Order Nat)], o.order_id ≠ "#W2") ∧
     invoke [(⟨"#W1", "pending", ⟨"a", "b", "c", "d", "e", "f"⟩, 0⟩ :
        Order Nat)] "#W2" "x1" "x2" "x3" "x4" "x5" "x6"
       = ([⟨"#W1", "pending", ⟨"a", "b", "c", "d", "e", "f"⟩, 0⟩],
          Sum.inl "Error: order not found")) ∧
    (lookupOrder [(⟨"#W1", "Delivered", ⟨"a", "b", "c", "d", "e", "f"⟩, 0⟩ :
        Order Nat)] "#W1"
       = some ⟨"#W1", "Delivered", ⟨"a", "b", "c", "d", "e", "f"⟩, 0⟩ ∧
     pyLower (⟨"#W1", "Delivered", ⟨"a", "b", "c", "d", "e", "f"⟩, 0⟩ :
        Order Nat).status ≠ "pending" ∧
     invoke [(⟨"#W1", "Delivered", ⟨"a", "b", "c", "d", "e", "f"⟩, 0⟩ :
        Order Nat)] "#W1" "x1" "x2" "x3" "x4" "x5" "x6"
       = ([⟨"#W1", "Delivered", ⟨"a", "b", "c", "d", "e", "f"⟩, 0⟩],
          Sum.inl "Error: non-pending order cannot be modified")) :=
  ⟨⟨by decide,
    (modify_address_errors [⟨"#W1", "pending", ⟨"a", "b", "c", "d", "e", "f"⟩,
        0⟩] "#W2" "x1" "x2" "x3" "x4" "x5" "x6").1 (by decide)⟩,
   ⟨by decide, by decide,
    (modify_address_errors [⟨"#W1", "Delivered", ⟨"a", "b", "c", "d", "e",
        "f"⟩, 0⟩] "#W1" "x1" "x2" "x3" "x4" "x5" "x6").2
      ⟨"#W1", "Delivered", ⟨"a", "b", "c", "d", "e", "f"⟩, 0⟩ (by decide)
      (by decide)⟩⟩

/-- C10: on a pending order, `invoke` writes back the looked-up order with
only its `address` replaced by the object built from the six supplied
address fields — the row at the targeted key becomes exactly that updated
order, whose key, status and opaque remaining fields are those of the
original; every order with a different key is unchanged; and the updated
order is returned (the source then JSON-serializes it). -/
theorem modify_address_success (orders : List (Order ε)) (order_id address1
    address2 city state country zip : String) (o : Order ε)
    (ho : lookupOrder orders order_id = some o)
    (hs : pyLower o.status = "pending") :
    invoke orders order_id address1 address2 city state country zip
      = (orders.map (fun p => if p.order_id = order_id then
           { o with address := ⟨address1, address2, city, state, country,
               zip⟩ }
         else p),
         Sum.inr { o with address := ⟨address1, address2, city, state,
           country, zip⟩ }) ∧
    ({ o with address := ⟨address1, address2, city, state, country,
        zip⟩ }.order_id = o.order_id ∧
     { o with address := ⟨address1, address2, city, state, country,
        zip⟩ }.status = o.status ∧
     { o with address := ⟨address1, address2, city, state, country,
        zip⟩ }.extra = o.extra) ∧
    (∀ p ∈ orders, p.order_id ≠ order_id →
      p ∈ (invoke orders order_id address1 address2 city state country
          zip).1) := by
  have hid : o.order_id = order_id := lookupOrder_id orders order_id o ho
  have hinv : invoke orders order_id address1 address2 city state country zip
      = (update_df orders { o with address := ⟨address1, address2, city,
          state, country, zip⟩ },
         Sum.inr { o with address := ⟨address1, address2, city, state,
           country, zip⟩ }) := by
    unfold invoke
    rw [ho]
    simp [hs]
  have hupd : update_df orders { o with address := ⟨address1, address2, city,
      state, country, zip⟩ }
      = orders.map (fun p => if p.order_id = order_id then
          { o with address := ⟨address1, address2, city, state, country,
              zip⟩ }
        else p) := by
    unfold update_df
    congr 1
    funext p
    simp [hid]
  constructor
  · rw [hinv, hupd]
  refine ⟨⟨rfl, rfl, rfl⟩, ?_⟩
  intro p hp hne
  rw [hinv]
  show p ∈ update_df orders { o with address := ⟨address1, address2, city,
    state, country, zip⟩ }
  rw [hupd]
  refine List.mem_map.mpr ⟨p, hp, ?_⟩
  rw [if_neg hne]

/-- Concrete witness for `modify_address_success`: a pending order gets its
address replaced, the other order is untouched. -/
theorem modify_address_success_witness :
    lookupOrder [(⟨"#W1", "Pending", ⟨"a", "b", "c", "d", "e", "f"⟩, 3⟩ :
        Order Nat), ⟨"#W9", "shipped", ⟨"q", "r", "s", "t", "u", "v"⟩, 4⟩]
      "#W1" = some ⟨"#W1", "Pending", ⟨"a", "b", "c", "d", "e", "f"⟩, 3⟩ ∧
    pyLower (⟨"#W1", "Pending", ⟨"a", "b", "c", "d", "e", "f"⟩, 3⟩ :
        Order Nat).status = "pending" ∧
    invoke [(⟨"#W1", "Pending", ⟨"a", "b", "c", "d", "e", "f"⟩, 3⟩ :
        Order Nat), ⟨"#W9", "shipped", ⟨"q", "r", "s", "t", "u", "v"⟩, 4⟩]
      "#W1" "n1" "n2" "n3" "n4" "n5" "n6"
      = ([⟨"#W1", "Pending", ⟨"n1", "n2", "n3", "n4", "n5", "n6"⟩, 3⟩,
          ⟨"#W9", "shipped", ⟨"q", "r", "s", "t", "u", "v"⟩, 4⟩],
         Sum.inr ⟨"#W1", "Pending", ⟨"n1", "n2", "n3", "n4", "n5", "n6"⟩,
           3⟩) :=
  ⟨by decide, by decide,
   by
    have h := (modify_address_success
      [(⟨"#W1", "Pending", ⟨"a", "b", "c", "d", "e", "f"⟩, 3⟩ : Order Nat),
       ⟨"#W9", "shipped", ⟨"q", "r", "s", "t", "u", "v"⟩, 4⟩]
      "#W1" "n1" "n2" "n3" "n4" "n5" "n6"
      ⟨"#W1", "Pending", ⟨"a", "b", "c", "d", "e", "f"⟩, 3⟩
      (by decide) (by decide)).1
    rw [h]
    decide⟩

end Intellagent
